import Mathlib

/-!
# Event management system: booking ledgers, venue search and OTP signup

A shallow embedding of `backend/server.js` (the per-venue booking ledgers and the
OTP gated signup) and of `handleSearch` in `frontend/.../homepage/Dashboard.js`
(filter pipeline and proximity ranking), with the properties stated about them.

Conventions.
* A MongoDB collection is the list of its documents in insertion order; `findOne`
  returns the first match and `deleteOne` removes the first match.
* A JavaScript `Date` is its time value, an integer number of milliseconds since
  the epoch. The `Date` constructor is a parameter `newDate : String → Option Int`
  (`none` is an Invalid Date).
* Mongoose keeps the documents of a model in a collection that it names after the
  model. That naming is a parameter `collectionOf : String → String`, from model
  names to collection names; the ledger of a venue is the collection of its model.
* Failures of the collaborators (database unreachable, and so on) are outside the
  model, except where a handler's own control flow produces them.
-/

namespace EventManagement

/-! ## `server.js`: hotel booking ledgers -/

/-- The characters matched by `\s` in a JavaScript regular expression. -/
def isJsWhitespace (c : Char) : Bool :=
  [0x09, 0x0A, 0x0B, 0x0C, 0x0D, 0x20, 0xA0, 0x1680, 0x2028, 0x2029, 0x202F, 0x205F,
    0x3000, 0xFEFF].contains c.toNat
    || (0x2000 ≤ c.toNat && c.toNat ≤ 0x200A)

/-- `getHotelBookingModel`: the name of the model, which is
`hotelName.replace(/\s+/g, '')` followed by `Bookings`. The model is created without a
collection name, so its documents are in the collection Mongoose names after it. -/
def getHotelBookingModel (hotelName : String) : String :=
  String.mk (hotelName.toList.filter fun c => !isJsWhitespace c) ++ "Bookings"

/-- A document of a hotel's booking collection (the schema of `getHotelBookingModel`). -/
structure HotelBooking where
  name : String
  email : String
  selectedDate : Int
  event : String
  deriving DecidableEq, Repr

/-- The booking collections of the database, by collection name. -/
abbrev Ledgers := String → List HotelBooking

/-- No booking has been stored yet. -/
def emptyLedgers : Ledgers := fun _ => []

/-- Body and route parameter of `POST /hotel/:hotelName/book-date`. -/
structure BookRequest where
  hotelName : String
  name : String
  email : String
  selectedDate : String
  event : String
  deriving DecidableEq, Repr

/-- The responses of the book-date handler, by their message. -/
inductive BookResponse where
  | allFieldsRequired
  | dateAlreadyBooked
  | bookingSuccessful
  | bookingError
  deriving DecidableEq, Repr

/-- `HotelBooking.findOne({ selectedDate: d })` on one collection. -/
def findOneByDate (docs : List HotelBooking) (d : Int) : Option HotelBooking :=
  docs.find? fun b => b.selectedDate == d

/-- `new HotelBooking(doc).save()`: append the document to the model's collection. -/
def saveBooking (db : Ledgers) (collection : String) (doc : HotelBooking) : Ledgers :=
  Function.update db collection (db collection ++ [doc])

/-- The handler of `POST /hotel/:hotelName/book-date`, run to completion.
An Invalid Date makes the query reject, which the handler answers with
`Booking error`. The `selectedDate` text of the saved document is cast by the schema
with the same constructor, so the stored time value is the one that was queried. -/
def bookDate (collectionOf : String → String) (newDate : String → Option Int)
    (db : Ledgers) (req : BookRequest) : Ledgers × BookResponse :=
  if req.name = "" ∨ req.email = "" ∨ req.selectedDate = "" ∨ req.event = "" then
    (db, .allFieldsRequired)
  else
    let collection := collectionOf (getHotelBookingModel req.hotelName)
    match newDate req.selectedDate with
    | none => (db, .bookingError)
    | some d =>
      match findOneByDate (db collection) d with
      | some _ => (db, .dateAlreadyBooked)
      | none =>
        (saveBooking db collection
          { name := req.name, email := req.email, selectedDate := d, event := req.event },
          .bookingSuccessful)

/-- A sequence of book-date calls executed one after another. -/
def bookAll (collectionOf : String → String) (newDate : String → Option Int) (db : Ledgers) :
    List BookRequest → Ledgers
  | [] => db
  | req :: rest => bookAll collectionOf newDate (bookDate collectionOf newDate db req).1 rest

/-- `GET /hotel/:hotelName/booked-dates`: the dates of all stored bookings. -/
def bookedDates (collectionOf : String → String) (db : Ledgers) (hotelName : String) :
    List Int :=
  (db (collectionOf (getHotelBookingModel hotelName))).map fun b => b.selectedDate

/-! ### An instance of the collection naming: lower case -/

/-- An instance of the naming of collections: the model name with its ASCII letters in
lower case. Mongoose names a collection by the lower-cased plural of the model name,
and a booking model name, which ends in `Bookings`, is already a plural. -/
def lowerCaseCollection (modelName : String) : String :=
  String.mk (modelName.toList.map Char.toLower)

/-! ### An instance of the `Date` constructor: the ISO 8601 formats -/

/-- The value of a non-empty run of decimal digits. -/
def digitsValue (cs : List Char) : Option Nat :=
  if cs ≠ [] ∧ cs.all Char.isDigit then
    some (cs.foldl (fun n c => 10 * n + (c.toNat - 48)) 0)
  else none

/-- Gregorian leap years. -/
def isLeapYear (y : Nat) : Bool :=
  (y % 4 == 0 && y % 100 != 0) || y % 400 == 0

/-- Number of days of month `m` (1 to 12) in year `y`. -/
def daysInMonth (y m : Nat) : Nat :=
  if m = 2 then (if isLeapYear y then 29 else 28)
  else if m = 4 ∨ m = 6 ∨ m = 9 ∨ m = 11 then 30
  else 31

/-- Days from 1970-01-01 to the civil date `y-m-d` (proleptic Gregorian calendar). -/
def daysFromCivil (y m d : Nat) : Int :=
  let yy : Int := if m ≤ 2 then (y : Int) - 1 else y
  let era : Int := yy / 400
  let yoe : Int := yy - era * 400
  let mp : Int := if m ≤ 2 then (m : Int) + 9 else (m : Int) - 3
  let doy : Int := (153 * mp + 2) / 5 + (d : Int) - 1
  let doe : Int := yoe * 365 + yoe / 4 - yoe / 100 + doy
  era * 146097 + doe - 719468

/-- Milliseconds in a day. -/
def msPerDay : Int := 86400000

/-- The date part `YYYY-MM-DD`, as milliseconds since the epoch at midnight UTC. -/
def isoDay (y m d : List Char) : Option Int :=
  match digitsValue y, digitsValue m, digitsValue d with
  | some yv, some mv, some dv =>
    if 1 ≤ mv ∧ mv ≤ 12 ∧ 1 ≤ dv ∧ dv ≤ daysInMonth yv mv then
      some (daysFromCivil yv mv dv * msPerDay)
    else none
  | _, _, _ => none

/-- The time part `HH:mm:ss.sss`, as milliseconds since midnight. -/
def isoTime (h mi s f : List Char) : Option Int :=
  match digitsValue h, digitsValue mi, digitsValue s, digitsValue f with
  | some hv, some mv, some sv, some fv =>
    if hv ≤ 23 ∧ mv ≤ 59 ∧ sv ≤ 59 then
      some (((hv * 60 + mv) * 60 + sv) * 1000 + fv : Nat)
    else none
  | _, _, _, _ => none

/-- The time value of `new Date(s)` for the date-only form `YYYY-MM-DD` and the UTC
date-time forms `YYYY-MM-DDTHH:mm:ssZ` and `YYYY-MM-DDTHH:mm:ss.sssZ`; every other
string is an Invalid Date in this instance. -/
def isoDate (s : String) : Option Int :=
  match s.toList with
  | [y1, y2, y3, y4, '-', m1, m2, '-', d1, d2] => isoDay [y1, y2, y3, y4] [m1, m2] [d1, d2]
  | [y1, y2, y3, y4, '-', m1, m2, '-', d1, d2, 'T', h1, h2, ':', i1, i2, ':', s1, s2, 'Z'] =>
    match isoDay [y1, y2, y3, y4] [m1, m2] [d1, d2], isoTime [h1, h2] [i1, i2] [s1, s2] ['0'] with
    | some a, some b => some (a + b)
    | _, _ => none
  | [y1, y2, y3, y4, '-', m1, m2, '-', d1, d2, 'T', h1, h2, ':', i1, i2, ':', s1, s2, '.',
      f1, f2, f3, 'Z'] =>
    match isoDay [y1, y2, y3, y4] [m1, m2] [d1, d2],
      isoTime [h1, h2] [i1, i2] [s1, s2] [f1, f2, f3] with
    | some a, some b => some (a + b)
    | _, _ => none
  | _ => none

/-! ### The handler as two storage steps, for interleaved executions -/

/-- Where one execution of the book-date handler stands: before its `findOne`,
between a `findOne` that found nothing and its `save`, or finished. -/
inductive BookPc where
  | start
  | checked (d : Int)
  | done (r : BookResponse)
  deriving DecidableEq, Repr

/-- One storage step of an execution: from `start` the validation and the `findOne`
check, from `checked` the `save`. A finished execution does nothing. -/
def bookStep (collectionOf : String → String) (newDate : String → Option Int)
    (db : Ledgers) (req : BookRequest) : BookPc → Ledgers × BookPc
  | .start =>
    if req.name = "" ∨ req.email = "" ∨ req.selectedDate = "" ∨ req.event = "" then
      (db, .done .allFieldsRequired)
    else
      match newDate req.selectedDate with
      | none => (db, .done .bookingError)
      | some d =>
        match findOneByDate (db (collectionOf (getHotelBookingModel req.hotelName))) d with
        | some _ => (db, .done .dateAlreadyBooked)
        | none => (db, .checked d)
  | .checked d =>
    (saveBooking db (collectionOf (getHotelBookingModel req.hotelName))
      { name := req.name, email := req.email, selectedDate := d, event := req.event },
      .done .bookingSuccessful)
  | .done r => (db, .done r)

/-- Executions of the handler for the requests `reqs`, interleaved by a schedule:
each entry of the schedule names the execution that takes its next storage step. -/
def interleave (collectionOf : String → String) (newDate : String → Option Int)
    (reqs : List BookRequest) : Ledgers × List BookPc → List Nat → Ledgers × List BookPc
  | st, [] => st
  | (db, pcs), i :: sched =>
    match reqs.get? i, pcs.get? i with
    | some req, some pc =>
      interleave collectionOf newDate reqs
        ((bookStep collectionOf newDate db req pc).1,
          pcs.set i (bookStep collectionOf newDate db req pc).2) sched
    | _, _ => interleave collectionOf newDate reqs (db, pcs) sched

/-- Number of executions that answered `Booking successful`. -/
def successCount (pcs : List BookPc) : Nat :=
  pcs.countP fun pc => pc == .done .bookingSuccessful

/-- Number of executions that answered `Date already booked`. -/
def conflictCount (pcs : List BookPc) : Nat :=
  pcs.countP fun pc => pc == .done .dateAlreadyBooked

/-! ## `server.js`: OTP issue, redemption and signup -/

/-- A document of the `OTP` collection. -/
structure OtpRecord where
  email : String
  otp : String
  expiresAt : Int
  deriving DecidableEq, Repr

/-- A document of the `User` collection. -/
structure User where
  email : String
  username : String
  password : String
  deriving DecidableEq, Repr

/-- The `OTP` and `User` collections. -/
structure AuthState where
  otps : List OtpRecord
  users : List User
  deriving DecidableEq, Repr

/-- `generateOTP`, with the value of `Math.random()` as its argument:
`Math.floor(100000 + random * 900000).toString()`. -/
def generateOTP (random : ℚ) : String :=
  toString ⌊100000 + random * 900000⌋

/-- `OTP.findOneAndUpdate({ email }, { otp, expiresAt }, { upsert: true })`: the first
record of the email gets the new code and expiry; without one a record is inserted. -/
def findOneAndUpdateOtp (email otp : String) (expiresAt : Int) : List OtpRecord → List OtpRecord
  | [] => [{ email := email, otp := otp, expiresAt := expiresAt }]
  | r :: rest =>
    if r.email = email then { r with otp := otp, expiresAt := expiresAt } :: rest
    else r :: findOneAndUpdateOtp email otp expiresAt rest

/-- The responses of `POST /send-otp`, by their message. -/
inductive SendOtpResponse where
  | emailRequired
  | otpSent
  | failedToSendOtp
  deriving DecidableEq, Repr

/-- The handler of `POST /send-otp`. `random` is the value of `Math.random()`, `now`
that of `Date.now()`, and `mailOk` tells whether `transporter.sendMail` resolved. -/
def sendOtp (random : ℚ) (now : Int) (mailOk : Bool) (st : AuthState) (email : String) :
    AuthState × SendOtpResponse :=
  if email = "" then (st, .emailRequired)
  else
    let otp := generateOTP random
    let expiresAt := now + 10 * 60 * 1000
    let st1 := { st with otps := findOneAndUpdateOtp email otp expiresAt st.otps }
    if mailOk then (st1, .otpSent) else (st1, .failedToSendOtp)

/-- Body of `POST /submit-signup`. -/
structure SignupRequest where
  email : String
  username : String
  password : String
  otp : String
  deriving DecidableEq, Repr

/-- The responses of `POST /submit-signup`, by their message. -/
inductive SignupResponse where
  | allFieldsRequired
  | noOtpRequested
  | otpExpired
  | invalidOtp
  | emailAlreadyRegistered
  | signupSuccessful
  deriving DecidableEq, Repr

/-- `OTP.findOne({ email })`. -/
def findOtp (otps : List OtpRecord) (email : String) : Option OtpRecord :=
  otps.find? fun r => r.email == email

/-- `OTP.deleteOne({ email })`. -/
def deleteOtp (otps : List OtpRecord) (email : String) : List OtpRecord :=
  otps.eraseP fun r => r.email == email

/-- `User.exists({ email })`. -/
def userExists (users : List User) (email : String) : Bool :=
  users.any fun u => u.email == email

/-- The handler of `POST /submit-signup`. `hash` stands for `bcrypt.hash(·, 10)` and
`now` is the value of `new Date()` at the expiry test. -/
def submitSignup (hash : String → String) (now : Int) (st : AuthState) (req : SignupRequest) :
    AuthState × SignupResponse :=
  if req.email = "" ∨ req.username = "" ∨ req.password = "" ∨ req.otp = "" then
    (st, .allFieldsRequired)
  else
    match findOtp st.otps req.email with
    | none => (st, .noOtpRequested)
    | some record =>
      if record.expiresAt < now then
        ({ st with otps := deleteOtp st.otps req.email }, .otpExpired)
      else if record.otp ≠ req.otp then (st, .invalidOtp)
      else
        let otps1 := deleteOtp st.otps req.email
        if userExists st.users req.email then
          ({ st with otps := otps1 }, .emailAlreadyRegistered)
        else
          ({ otps := otps1,
             users := st.users ++
              [{ email := req.email, username := req.username, password := hash req.password }] },
            .signupSuccessful)

/-- A call of one of the two handlers that write the `OTP` and `User` collections. -/
inductive AuthCall where
  | sendOtp (random : ℚ) (now : Int) (mailOk : Bool) (email : String)
  | submitSignup (now : Int) (req : SignupRequest)

/-- The state after one call. -/
def authStep (hash : String → String) (st : AuthState) : AuthCall → AuthState
  | .sendOtp random now mailOk email => (sendOtp random now mailOk st email).1
  | .submitSignup now req => (submitSignup hash now st req).1

/-- The state after a sequence of calls executed one after another. -/
def authRun (hash : String → String) (st : AuthState) (calls : List AuthCall) : AuthState :=
  calls.foldl (authStep hash) st

/-! ## `Dashboard.js`: `handleSearch` -/

/-- A venue of the catalog `hotels.json`, with the fields `handleSearch` reads. -/
structure Hotel where
  id : Nat
  area : String
  price : Int
  capacity : Int
  supportedEvents : List String
  deriving DecidableEq, Repr

/-- The value of a character as a digit of the given radix, if it is one. -/
def radixDigit (radix : Nat) (c : Char) : Option Nat :=
  let v : Option Nat :=
    if 48 ≤ c.toNat ∧ c.toNat ≤ 57 then some (c.toNat - 48)
    else if 97 ≤ c.toNat ∧ c.toNat ≤ 122 then some (c.toNat - 87)
    else if 65 ≤ c.toNat ∧ c.toNat ≤ 90 then some (c.toNat - 55)
    else none
  v.filter fun d => d < radix

/-- JavaScript `parseInt(s)` without a radix argument, `none` standing for `NaN`:
leading white space is skipped, a sign is read, a `0x` or `0X` start selects radix 16,
and the longest run of digits that follows is the value; anything after it is ignored.
The value is exact here (a JavaScript number is exact below `2 ^ 53`). -/
def parseInt (s : String) : Option Int :=
  let cs := s.toList.dropWhile isJsWhitespace
  let negative : Bool := cs.head? == some '-'
  let cs := match cs with
    | '-' :: rest => rest
    | '+' :: rest => rest
    | _ => cs
  let hex : Bool := match cs with
    | '0' :: 'x' :: _ => true
    | '0' :: 'X' :: _ => true
    | _ => false
  let radix := if hex then 16 else 10
  let cs := if hex then cs.drop 2 else cs
  let ds := cs.takeWhile fun c => (radixDigit radix c).isSome
  if ds = [] then none
  else
    let n : Nat := ds.foldl (fun n c => radix * n + (radixDigit radix c).getD 0) 0
    some (if negative then -(n : Int) else n)

/-- `x >= bound` where `bound` is the result of `parseInt`: false for `NaN`. -/
def geBound (x : Int) : Option Int → Bool
  | some n => decide (n ≤ x)
  | none => false

/-- `x <= bound` where `bound` is the result of `parseInt`: false for `NaN`. -/
def leBound (x : Int) : Option Int → Bool
  | some n => decide (x ≤ n)
  | none => false

/-- The location graph `graph.json`: an object from area names to neighbour weights. -/
abbrev Graph := String → Option (List (String × ℚ))

/-- A distance table as returned by `dijkstra`: an object from area names to distances. -/
abbrev DistanceTable := String → Option ℚ

/-- The state of the `Dashboard` component. -/
structure Dashboard where
  hotels : List Hotel
  filteredHotels : List Hotel
  graph : Graph
  location : String
  eventFilter : String
  minPrice : String
  maxPrice : String
  minCapacity : String
  maxCapacity : String

/-- The filter block of `handleSearch`: `updated` after the five conditional filters. -/
def applyFilters (st : Dashboard) : List Hotel :=
  let updated := st.hotels
  let updated :=
    if st.eventFilter ≠ "" then
      updated.filter fun hotel => hotel.supportedEvents.contains st.eventFilter
    else updated
  let updated :=
    if st.minPrice ≠ "" then
      updated.filter fun hotel => geBound hotel.price (parseInt st.minPrice)
    else updated
  let updated :=
    if st.maxPrice ≠ "" then
      updated.filter fun hotel => leBound hotel.price (parseInt st.maxPrice)
    else updated
  let updated :=
    if st.minCapacity ≠ "" then
      updated.filter fun hotel => geBound hotel.capacity (parseInt st.minCapacity)
    else updated
  let updated :=
    if st.maxCapacity ≠ "" then
      updated.filter fun hotel => leBound hotel.capacity (parseInt st.maxCapacity)
    else updated
  updated

/-- The values a comparator of `handleSearch` can return: a finite number (exact
here), an infinity or `NaN`. -/
inductive JsNumber where
  | finite (q : ℚ)
  | posInfinity
  | negInfinity
  | nan
  deriving DecidableEq

/-- JavaScript subtraction on these values. -/
def JsNumber.sub : JsNumber → JsNumber → JsNumber
  | .nan, _ => .nan
  | _, .nan => .nan
  | .finite a, .finite b => .finite (a - b)
  | .finite _, .posInfinity => .negInfinity
  | .finite _, .negInfinity => .posInfinity
  | .posInfinity, .posInfinity => .nan
  | .posInfinity, _ => .posInfinity
  | .negInfinity, .negInfinity => .nan
  | .negInfinity, _ => .negInfinity

/-- Whether a comparator result is greater than zero; `NaN` counts as `+0`. -/
def JsNumber.isPositive : JsNumber → Bool
  | .finite q => decide (0 < q)
  | .posInfinity => true
  | _ => false

/-- The expression `distances[hotel.area] ?? Infinity`. -/
def distanceOf (distances : DistanceTable) (hotel : Hotel) : JsNumber :=
  match distances hotel.area with
  | some d => .finite d
  | none => .posInfinity

/-- The comparator passed to `updated.sort` in `handleSearch`. -/
def proximityCompare (distances : DistanceTable) (a b : Hotel) : JsNumber :=
  let d1 := distanceOf distances a
  let d2 := distanceOf distances b
  if d1 = .finite 0 ∧ d2 ≠ .finite 0 then .finite (-1)
  else if d1 ≠ .finite 0 ∧ d2 = .finite 0 then .finite 1
  else d1.sub d2

/-- The plain comparator `d1 - d2`, without the two tests for a zero distance. -/
def plainCompare (distances : DistanceTable) (a b : Hotel) : JsNumber :=
  (distanceOf distances a).sub (distanceOf distances b)

/-- `Array.prototype.sort(comparefn)`, which ECMAScript requires to be stable: an
insertion sort in which an element stays in front of the elements it precedes
unless `comparefn` says it is greater. When `comparefn` orders by a key the result
does not depend on the sorting algorithm (`stable_sorted_unique`). -/
def arraySort {α : Type} (comparefn : α → α → JsNumber) (l : List α) : List α :=
  l.insertionSort fun a b => (comparefn a b).isPositive = false

/-- `handleSearch`. `dijkstra` is the function imported from `utils/dijkstra.js`; the
second component is the text of the alert, if one is shown. -/
def handleSearch (dijkstra : Graph → String → DistanceTable) (st : Dashboard) :
    Dashboard × Option String :=
  if st.location = "" ∨ (st.graph st.location).isNone then
    (st, some "Please select a valid location.")
  else
    let distances := dijkstra st.graph st.location
    ({ st with filteredHotels := arraySort (proximityCompare distances) (applyFilters st) },
      none)

/-! ### The properties as the specification words them -/

/-- The distance of a venue with an absent entry counting as positive infinity. -/
def extendedDistance (distances : DistanceTable) (hotel : Hotel) : WithTop ℚ :=
  match distances hotel.area with
  | some d => (d : WithTop ℚ)
  | none => ⊤

/-- A decimal numeral, denoting `digits * 10 ^ exponent`. -/
structure Numeral where
  digits : Int
  exponent : Int
  deriving DecidableEq, Repr

/-- The number a constraint text denotes: an optional sign, digits with an optional
fraction, and an optional exponent part, as a number field delivers it. -/
def numeralOf (s : String) : Option Numeral :=
  let cs := s.toList
  let negative : Bool := cs.head? == some '-'
  let cs := match cs with
    | '-' :: rest => rest
    | '+' :: rest => rest
    | _ => cs
  let ip := cs.takeWhile Char.isDigit
  let cs := cs.dropWhile Char.isDigit
  let fp := match cs with
    | '.' :: rest => rest.takeWhile Char.isDigit
    | _ => []
  let cs := match cs with
    | '.' :: rest => rest.dropWhile Char.isDigit
    | _ => cs
  let ex : Option Int := match cs with
    | [] => some 0
    | 'e' :: '-' :: rest => (digitsValue rest).map fun n => -(n : Int)
    | 'e' :: '+' :: rest => (digitsValue rest).map fun n => (n : Int)
    | 'e' :: rest => (digitsValue rest).map fun n => (n : Int)
    | 'E' :: '-' :: rest => (digitsValue rest).map fun n => -(n : Int)
    | 'E' :: '+' :: rest => (digitsValue rest).map fun n => (n : Int)
    | 'E' :: rest => (digitsValue rest).map fun n => (n : Int)
    | _ => none
  match digitsValue (ip ++ fp), ex with
  | some m, some e =>
    some { digits := if negative then -(m : Int) else m, exponent := e - fp.length }
  | _, _ => none

/-- The numeral is at most the integer `x`. -/
def Numeral.leInt (n : Numeral) (x : Int) : Bool :=
  if 0 ≤ n.exponent then decide (n.digits * 10 ^ n.exponent.toNat ≤ x)
  else decide (n.digits ≤ x * 10 ^ (-n.exponent).toNat)

/-- The integer `x` is at most the numeral. -/
def Numeral.geInt (n : Numeral) (x : Int) : Bool :=
  if 0 ≤ n.exponent then decide (x ≤ n.digits * 10 ^ n.exponent.toNat)
  else decide (x * 10 ^ (-n.exponent).toNat ≤ n.digits)

/-- The venue satisfies every supplied constraint, the empty text meaning that the
constraint is not supplied and a numeric bound being the number its text denotes,
bounds inclusive. -/
def meetsConstraints (st : Dashboard) (hotel : Hotel) : Bool :=
  (st.eventFilter == "" || hotel.supportedEvents.contains st.eventFilter)
  && (st.minPrice == "" || ((numeralOf st.minPrice).map fun n => n.leInt hotel.price).getD false)
  && (st.maxPrice == "" || ((numeralOf st.maxPrice).map fun n => n.geInt hotel.price).getD false)
  && (st.minCapacity == ""
      || ((numeralOf st.minCapacity).map fun n => n.leInt hotel.capacity).getD false)
  && (st.maxCapacity == ""
      || ((numeralOf st.maxCapacity).map fun n => n.geInt hotel.capacity).getD false)

/-- Every entry of the distance table is non-negative. -/
def NonNegTable (distances : DistanceTable) : Prop :=
  ∀ (area : String) (d : ℚ), distances area = some d → 0 ≤ d

/-- The distance table of the specification's ranking example. -/
def exampleDistances : DistanceTable := fun area =>
  if area = "A" then some 0
  else if area = "B" then some 2
  else if area = "C" then some 5
  else none

/-- Within each booking collection no two documents share a `selectedDate`. -/
def DatesDistinct (db : Ledgers) : Prop :=
  ∀ collection : String, ((db collection).map fun b => b.selectedDate).Nodup

/-! ## Theorems: booking ledgers -/

theorem findOneByDate_eq_none {docs : List HotelBooking} {d : Int}
    (h : findOneByDate docs d = none) : d ∉ docs.map fun b => b.selectedDate := by
  unfold findOneByDate at h
  rw [List.find?_eq_none] at h
  intro hmem
  rcases List.mem_map.1 hmem with ⟨b, hb, hbd⟩
  exact h b hb (by simp [hbd])

theorem findOneByDate_isSome {docs : List HotelBooking} {d : Int} {b : HotelBooking}
    (hb : b ∈ docs) (hd : b.selectedDate = d) : ∃ c, findOneByDate docs d = some c := by
  cases h : findOneByDate docs d with
  | some c => exact ⟨c, rfl⟩
  | none =>
    exact absurd (List.mem_map.2 ⟨b, hb, hd⟩) (findOneByDate_eq_none h)

theorem bookDate_missing {collectionOf : String → String}
    {newDate : String → Option Int} {db : Ledgers} {req : BookRequest}
    (hf : req.name = "" ∨ req.email = "" ∨ req.selectedDate = "" ∨ req.event = "") :
    bookDate collectionOf newDate db req = (db, .allFieldsRequired) := by
  unfold bookDate
  rw [if_pos hf]

theorem bookDate_invalid {collectionOf : String → String}
    {newDate : String → Option Int} {db : Ledgers} {req : BookRequest}
    (hf : ¬ (req.name = "" ∨ req.email = "" ∨ req.selectedDate = "" ∨ req.event = ""))
    (hd : newDate req.selectedDate = none) :
    bookDate collectionOf newDate db req = (db, .bookingError) := by
  unfold bookDate
  rw [if_neg hf]
  simp only [hd]

theorem bookDate_conflict {collectionOf : String → String}
    {newDate : String → Option Int} {db : Ledgers} {req : BookRequest}
    {d : Int} {c : HotelBooking}
    (hf : ¬ (req.name = "" ∨ req.email = "" ∨ req.selectedDate = "" ∨ req.event = ""))
    (hd : newDate req.selectedDate = some d)
    (hc : findOneByDate (db (collectionOf (getHotelBookingModel req.hotelName))) d = some c) :
    bookDate collectionOf newDate db req = (db, .dateAlreadyBooked) := by
  unfold bookDate
  rw [if_neg hf]
  simp only [hd, hc]

theorem bookDate_free {collectionOf : String → String}
    {newDate : String → Option Int} {db : Ledgers} {req : BookRequest}
    {d : Int}
    (hf : ¬ (req.name = "" ∨ req.email = "" ∨ req.selectedDate = "" ∨ req.event = ""))
    (hd : newDate req.selectedDate = some d)
    (hc : findOneByDate (db (collectionOf (getHotelBookingModel req.hotelName))) d = none) :
    bookDate collectionOf newDate db req =
      (saveBooking db (collectionOf (getHotelBookingModel req.hotelName))
        { name := req.name, email := req.email, selectedDate := d, event := req.event },
        .bookingSuccessful) := by
  unfold bookDate
  rw [if_neg hf]
  simp only [hd, hc]

theorem bookDate_unchanged_or_successful (collectionOf : String → String)
    (newDate : String → Option Int) (db : Ledgers)
    (req : BookRequest) :
    (bookDate collectionOf newDate db req).1 = db ∨
      (bookDate collectionOf newDate db req).2 = .bookingSuccessful := by
  by_cases hf : req.name = "" ∨ req.email = "" ∨ req.selectedDate = "" ∨ req.event = ""
  · rw [bookDate_missing hf]; exact Or.inl rfl
  · cases hd : newDate req.selectedDate with
    | none => rw [bookDate_invalid hf hd]; exact Or.inl rfl
    | some d =>
      cases hc : findOneByDate (db (collectionOf (getHotelBookingModel req.hotelName))) d with
      | some c => rw [bookDate_conflict hf hd hc]; exact Or.inl rfl
      | none => rw [bookDate_free hf hd hc]; exact Or.inr rfl

theorem saveBooking_datesDistinct {db : Ledgers} (h : DatesDistinct db) (model : String)
    (doc : HotelBooking) (hnew : doc.selectedDate ∉ (db model).map fun b => b.selectedDate) :
    DatesDistinct (saveBooking db model doc) := by
  intro m
  unfold saveBooking
  by_cases hm : m = model
  · subst hm
    simp only [Function.update_same, List.map_append, List.map_cons, List.map_nil]
    refine List.Nodup.append (h m) (List.nodup_singleton _) ?_
    intro x hx hx2
    rw [List.mem_singleton] at hx2
    subst hx2
    exact hnew hx
  · rw [Function.update_noteq hm]
    exact h m

theorem bookDate_datesDistinct (collectionOf : String → String)
    (newDate : String → Option Int) {db : Ledgers}
    (h : DatesDistinct db) (req : BookRequest) :
    DatesDistinct (bookDate collectionOf newDate db req).1 := by
  by_cases hf : req.name = "" ∨ req.email = "" ∨ req.selectedDate = "" ∨ req.event = ""
  · rw [bookDate_missing hf]; exact h
  · cases hd : newDate req.selectedDate with
    | none => rw [bookDate_invalid hf hd]; exact h
    | some d =>
      cases hc : findOneByDate (db (collectionOf (getHotelBookingModel req.hotelName))) d with
      | some c => rw [bookDate_conflict hf hd hc]; exact h
      | none =>
        rw [bookDate_free hf hd hc]
        exact saveBooking_datesDistinct h _ _ (findOneByDate_eq_none hc)

theorem bookAll_datesDistinct (collectionOf : String → String)
    (newDate : String → Option Int) (reqs : List BookRequest) :
    ∀ {db : Ledgers}, DatesDistinct db →
      DatesDistinct (bookAll collectionOf newDate db reqs) := by
  induction reqs with
  | nil => intro db h; exact h
  | cons req rest ih =>
    intro db h
    exact ih (bookDate_datesDistinct collectionOf newDate h req)

theorem emptyLedgers_datesDistinct : DatesDistinct emptyLedgers := by
  intro m
  simp [emptyLedgers]

theorem filter_date_length_le_one (docs : List HotelBooking) (d : Int)
    (h : (docs.map fun b => b.selectedDate).Nodup) :
    (docs.filter fun b => b.selectedDate = d).length ≤ 1 := by
  induction docs with
  | nil => simp
  | cons a l ih =>
    rw [List.map_cons, List.nodup_cons] at h
    by_cases ha : a.selectedDate = d
    · have hl : (l.filter fun b => decide (b.selectedDate = d)) = [] := by
        rw [List.filter_eq_nil_iff]
        intro b hb hbd
        apply h.1
        rw [ha]
        exact List.mem_map.2 ⟨b, hb, by simpa using hbd⟩
      simp [List.filter_cons, ha, hl]
    · have := ih h.2
      simpa [List.filter_cons, ha] using this

theorem saveBooking_mem_mono (db : Ledgers) (model : String) (doc : HotelBooking)
    {m : String} {b : HotelBooking} (hb : b ∈ db m) : b ∈ saveBooking db model doc m := by
  unfold saveBooking
  by_cases hm : m = model
  · subst hm
    rw [Function.update_same]
    exact List.mem_append_left _ hb
  · rw [Function.update_noteq hm]
    exact hb

theorem saveBooking_mem_new (db : Ledgers) (model : String) (doc : HotelBooking) :
    doc ∈ saveBooking db model doc model := by
  unfold saveBooking
  rw [Function.update_same]
  exact List.mem_append_right _ (List.mem_singleton.2 rfl)

theorem bookDate_mem_mono (collectionOf : String → String)
    (newDate : String → Option Int) (db : Ledgers) (req : BookRequest)
    {model : String} {b : HotelBooking} (hb : b ∈ db model) :
    b ∈ (bookDate collectionOf newDate db req).1 model := by
  rcases bookDate_unchanged_or_successful collectionOf newDate db req with h | h
  · rw [h]; exact hb
  · by_cases hf : req.name = "" ∨ req.email = "" ∨ req.selectedDate = "" ∨ req.event = ""
    · rw [bookDate_missing hf]; exact hb
    · cases hd : newDate req.selectedDate with
      | none => rw [bookDate_invalid hf hd]; exact hb
      | some d =>
        cases hc : findOneByDate (db (collectionOf (getHotelBookingModel req.hotelName))) d with
        | some c => rw [bookDate_conflict hf hd hc]; exact hb
        | none =>
          rw [bookDate_free hf hd hc]
          exact saveBooking_mem_mono db _ _ hb

theorem bookAll_mem_mono (collectionOf : String → String)
    (newDate : String → Option Int) (reqs : List BookRequest) :
    ∀ (db : Ledgers) {model : String} {b : HotelBooking}, b ∈ db model →
      b ∈ bookAll collectionOf newDate db reqs model := by
  induction reqs with
  | nil => intro db model b hb; exact hb
  | cons req rest ih =>
    intro db model b hb
    exact ih _ (bookDate_mem_mono collectionOf newDate db req hb)

theorem bookDate_successful_mem {collectionOf : String → String}
    {newDate : String → Option Int} {db : Ledgers}
    {req : BookRequest} (h : (bookDate collectionOf newDate db req).2 = .bookingSuccessful) :
    ¬ (req.name = "" ∨ req.email = "" ∨ req.selectedDate = "" ∨ req.event = "") ∧
    ∃ d, newDate req.selectedDate = some d ∧
      ∃ b ∈ (bookDate collectionOf newDate db req).1
          (collectionOf (getHotelBookingModel req.hotelName)),
        b.selectedDate = d := by
  by_cases hf : req.name = "" ∨ req.email = "" ∨ req.selectedDate = "" ∨ req.event = ""
  · rw [bookDate_missing hf] at h; cases h
  · refine ⟨hf, ?_⟩
    cases hd : newDate req.selectedDate with
    | none => rw [bookDate_invalid hf hd] at h; cases h
    | some d =>
      cases hc : findOneByDate (db (collectionOf (getHotelBookingModel req.hotelName))) d with
      | some c => rw [bookDate_conflict hf hd hc] at h; cases h
      | none =>
        rw [bookDate_free hf hd hc]
        exact ⟨d, rfl, _, saveBooking_mem_new db _ _, rfl⟩

theorem bookDate_conflict_of_mem {collectionOf : String → String}
    {newDate : String → Option Int} {db : Ledgers}
    {req : BookRequest} {d : Int} {b : HotelBooking}
    (hf : ¬ (req.name = "" ∨ req.email = "" ∨ req.selectedDate = "" ∨ req.event = ""))
    (hd : newDate req.selectedDate = some d)
    (hb : b ∈ db (collectionOf (getHotelBookingModel req.hotelName))) (hbd : b.selectedDate = d) :
    bookDate collectionOf newDate db req = (db, .dateAlreadyBooked) := by
  obtain ⟨c, hc⟩ := findOneByDate_isSome hb hbd
  exact bookDate_conflict hf hd hc

theorem bookStep_twice (collectionOf : String → String)
    (newDate : String → Option Int) (db : Ledgers) (req : BookRequest) :
    bookStep collectionOf newDate (bookStep collectionOf newDate db req .start).1 req
        (bookStep collectionOf newDate db req .start).2
      = ((bookDate collectionOf newDate db req).1,
        .done (bookDate collectionOf newDate db req).2) := by
  by_cases hf : req.name = "" ∨ req.email = "" ∨ req.selectedDate = "" ∨ req.event = ""
  · rw [bookDate_missing hf]
    simp only [bookStep, if_pos hf]
  · cases hd : newDate req.selectedDate with
    | none =>
      rw [bookDate_invalid hf hd]
      simp only [bookStep, if_neg hf, hd]
    | some d =>
      cases hc : findOneByDate (db (collectionOf (getHotelBookingModel req.hotelName))) d with
      | some c =>
        rw [bookDate_conflict hf hd hc]
        simp only [bookStep, if_neg hf, hd, hc]
      | none =>
        rw [bookDate_free hf hd hc]
        simp only [bookStep, if_neg hf, hd, hc]

/-! ## The claims about the booking ledgers -/

/-- C1. Booking exclusivity for calls executed one after another: starting from empty
ledgers, after any sequence of book-date calls every venue's ledger holds at most one
entry for each date value; a call that does not answer `Booking successful` leaves the
ledgers as they were; and in the scenario of the specification the booking of HallX for
2025-05-01 by user A succeeds, the following booking of the same date by user B is
rejected with `Date already booked`, and the booking of 2025-05-02 by user B succeeds. -/
theorem booking_exclusivity_sequential :
    (∀ (collectionOf : String → String) (newDate : String → Option Int)
        (reqs : List BookRequest) (hotelName : String) (d : Int),
      ((bookAll collectionOf newDate emptyLedgers reqs
          (collectionOf (getHotelBookingModel hotelName))).filter
        fun b => b.selectedDate = d).length ≤ 1) ∧
    (∀ (collectionOf : String → String) (newDate : String → Option Int) (db : Ledgers)
        (req : BookRequest),
      (bookDate collectionOf newDate db req).1 = db ∨
        (bookDate collectionOf newDate db req).2 = .bookingSuccessful) ∧
    ((bookDate lowerCaseCollection isoDate emptyLedgers
        ⟨"HallX", "userA", "a@example.com", "2025-05-01", "Marriage"⟩).2 = .bookingSuccessful ∧
      (bookDate lowerCaseCollection isoDate
        (bookAll lowerCaseCollection isoDate emptyLedgers
          [⟨"HallX", "userA", "a@example.com", "2025-05-01", "Marriage"⟩])
        ⟨"HallX", "userB", "b@example.com", "2025-05-01", "Birthday"⟩).2 = .dateAlreadyBooked ∧
      (bookDate lowerCaseCollection isoDate
        (bookAll lowerCaseCollection isoDate emptyLedgers
          [⟨"HallX", "userA", "a@example.com", "2025-05-01", "Marriage"⟩,
           ⟨"HallX", "userB", "b@example.com", "2025-05-01", "Birthday"⟩])
        ⟨"HallX", "userB", "b@example.com", "2025-05-02", "Birthday"⟩).2 = .bookingSuccessful ∧
      bookedDates lowerCaseCollection
        (bookAll lowerCaseCollection isoDate emptyLedgers
          [⟨"HallX", "userA", "a@example.com", "2025-05-01", "Marriage"⟩,
           ⟨"HallX", "userB", "b@example.com", "2025-05-01", "Birthday"⟩,
           ⟨"HallX", "userB", "b@example.com", "2025-05-02", "Birthday"⟩]) "HallX"
        = [1746057600000, 1746144000000]) := by
  refine ⟨?_, bookDate_unchanged_or_successful, ?_⟩
  · intro collectionOf newDate reqs hotelName d
    exact filter_date_length_le_one _ d
      (bookAll_datesDistinct collectionOf newDate reqs emptyLedgers_datesDistinct _)
  · decide

/-- C2, refuted as stated: two date values on the same calendar day that differ in the
time of day are both booked at the same venue; the second attempt answers
`Booking successful` and adds a second entry. -/
theorem same_day_other_time_not_rejected :
    (isoDate "2025-05-01T10:00:00Z").map (fun t => t / msPerDay)
      = (isoDate "2025-05-01T18:30:00Z").map (fun t => t / msPerDay) ∧
    (bookDate lowerCaseCollection isoDate emptyLedgers
      ⟨"HallX", "userA", "a@example.com", "2025-05-01T10:00:00Z", "Marriage"⟩).2
      = .bookingSuccessful ∧
    (bookDate lowerCaseCollection isoDate
      (bookDate lowerCaseCollection isoDate emptyLedgers
        ⟨"HallX", "userA", "a@example.com", "2025-05-01T10:00:00Z", "Marriage"⟩).1
      ⟨"HallX", "userB", "b@example.com", "2025-05-01T18:30:00Z", "Birthday"⟩).2
      = .bookingSuccessful ∧
    bookedDates lowerCaseCollection
      (bookAll lowerCaseCollection isoDate emptyLedgers
        [⟨"HallX", "userA", "a@example.com", "2025-05-01T10:00:00Z", "Marriage"⟩,
         ⟨"HallX", "userB", "b@example.com", "2025-05-01T18:30:00Z", "Birthday"⟩]) "HallX"
      = [1746093600000, 1746124200000] := by
  decide

/-- C2, amended: dates are compared by their exact time value. Once a booking for the
date text of `first` has succeeded at a venue, every later book-date attempt at that
venue whose date text denotes the same time value is rejected with
`Date already booked` and leaves the ledgers unchanged, whatever calls came between. -/
theorem same_instant_rejected (collectionOf : String → String)
    (newDate : String → Option Int) (db : Ledgers)
    (first : BookRequest) (between : List BookRequest) (later : BookRequest)
    (hfirst : (bookDate collectionOf newDate db first).2 = .bookingSuccessful)
    (hvenue : later.hotelName = first.hotelName)
    (hdate : newDate later.selectedDate = newDate first.selectedDate)
    (hfields : later.name ≠ "" ∧ later.email ≠ "" ∧ later.selectedDate ≠ "" ∧ later.event ≠ "") :
    bookDate collectionOf newDate
        (bookAll collectionOf newDate (bookDate collectionOf newDate db first).1 between) later
      = (bookAll collectionOf newDate (bookDate collectionOf newDate db first).1 between,
        .dateAlreadyBooked) := by
  obtain ⟨_, d, hd, b, hb, hbd⟩ := bookDate_successful_mem hfirst
  have hf : ¬ (later.name = "" ∨ later.email = "" ∨ later.selectedDate = "" ∨
      later.event = "") := by
    rintro (h | h | h | h)
    · exact hfields.1 h
    · exact hfields.2.1 h
    · exact hfields.2.2.1 h
    · exact hfields.2.2.2 h
  refine bookDate_conflict_of_mem hf (hdate.trans hd) ?_ hbd
  rw [hvenue]
  exact bookAll_mem_mono collectionOf newDate between _ hb

theorem same_instant_rejected_witness :
    bookDate lowerCaseCollection isoDate
        (bookAll lowerCaseCollection isoDate
          (bookDate lowerCaseCollection isoDate emptyLedgers
            ⟨"HallX", "userA", "a@example.com", "2025-05-01", "Marriage"⟩).1
          [⟨"HallX", "userC", "c@example.com", "2025-05-03", "Birthday"⟩])
        ⟨"HallX", "userB", "b@example.com", "2025-05-01T00:00:00.000Z", "Birthday"⟩
      = (bookAll lowerCaseCollection isoDate
          (bookDate lowerCaseCollection isoDate emptyLedgers
            ⟨"HallX", "userA", "a@example.com", "2025-05-01", "Marriage"⟩).1
          [⟨"HallX", "userC", "c@example.com", "2025-05-03", "Birthday"⟩],
        .dateAlreadyBooked) :=
  same_instant_rejected lowerCaseCollection isoDate emptyLedgers
    ⟨"HallX", "userA", "a@example.com", "2025-05-01", "Marriage"⟩
    [⟨"HallX", "userC", "c@example.com", "2025-05-03", "Birthday"⟩]
    ⟨"HallX", "userB", "b@example.com", "2025-05-01T00:00:00.000Z", "Birthday"⟩
    (by decide) rfl (by decide) (by decide)

/-- C3, the failing interleaving: two executions of the handler for the same venue and
date, scheduled as check, check, save, save, both answer `Booking successful`, no
execution answers `Date already booked`, and the ledger ends with two entries for the
date. -/
theorem concurrent_double_booking :
    (interleave lowerCaseCollection isoDate
      [⟨"HallX", "userA", "a@example.com", "2025-05-01", "Marriage"⟩,
       ⟨"HallX", "userB", "b@example.com", "2025-05-01", "Birthday"⟩]
      (emptyLedgers, [.start, .start]) [0, 1, 0, 1]).2
      = [.done .bookingSuccessful, .done .bookingSuccessful] ∧
    successCount (interleave lowerCaseCollection isoDate
      [⟨"HallX", "userA", "a@example.com", "2025-05-01", "Marriage"⟩,
       ⟨"HallX", "userB", "b@example.com", "2025-05-01", "Birthday"⟩]
      (emptyLedgers, [.start, .start]) [0, 1, 0, 1]).2 = 2 ∧
    conflictCount (interleave lowerCaseCollection isoDate
      [⟨"HallX", "userA", "a@example.com", "2025-05-01", "Marriage"⟩,
       ⟨"HallX", "userB", "b@example.com", "2025-05-01", "Birthday"⟩]
      (emptyLedgers, [.start, .start]) [0, 1, 0, 1]).2 = 0 ∧
    bookedDates lowerCaseCollection (interleave lowerCaseCollection isoDate
      [⟨"HallX", "userA", "a@example.com", "2025-05-01", "Marriage"⟩,
       ⟨"HallX", "userB", "b@example.com", "2025-05-01", "Birthday"⟩]
      (emptyLedgers, [.start, .start]) [0, 1, 0, 1]).1 "HallX"
      = [1746057600000, 1746057600000] := by
  decide

/-! ## Theorems: `handleSearch` -/

theorem orderedInsert_congr {α : Type} {r s : α → α → Prop} [DecidableRel r] [DecidableRel s]
    (h : ∀ a b, r a b ↔ s a b) (a : α) (l : List α) :
    l.orderedInsert r a = l.orderedInsert s a := by
  induction l with
  | nil => rfl
  | cons b t ih =>
    by_cases hab : r a b
    · simp only [List.orderedInsert, if_pos hab, if_pos ((h a b).1 hab)]
    · have hab2 : ¬ s a b := fun hs => hab ((h a b).2 hs)
      simp only [List.orderedInsert, if_neg hab, if_neg hab2, ih]

theorem insertionSort_congr {α : Type} {r s : α → α → Prop} [DecidableRel r] [DecidableRel s]
    (h : ∀ a b, r a b ↔ s a b) (l : List α) : l.insertionSort r = l.insertionSort s := by
  induction l with
  | nil => rfl
  | cons a t ih =>
    simp only [List.insertionSort, ih]
    exact orderedInsert_congr h a _

theorem plainCompare_not_positive_iff (distances : DistanceTable) (a b : Hotel) :
    (plainCompare distances a b).isPositive = false ↔
      extendedDistance distances a ≤ extendedDistance distances b := by
  unfold plainCompare distanceOf extendedDistance
  cases distances a.area <;> cases distances b.area <;>
    simp [JsNumber.sub, JsNumber.isPositive]

theorem proximityCompare_isPositive_eq {distances : DistanceTable} (hnn : NonNegTable distances)
    (a b : Hotel) :
    (proximityCompare distances a b).isPositive = (plainCompare distances a b).isPositive := by
  unfold proximityCompare plainCompare distanceOf
  cases ha : distances a.area with
  | none =>
    cases hb : distances b.area with
    | none => simp [JsNumber.sub, JsNumber.isPositive]
    | some y =>
      by_cases hy : y = 0
      · simp [JsNumber.sub, JsNumber.isPositive, hy]
      · simp [JsNumber.sub, JsNumber.isPositive, hy]
  | some x =>
    have hx := hnn _ _ ha
    cases hb : distances b.area with
    | none =>
      by_cases hx0 : x = 0
      · simp [JsNumber.sub, JsNumber.isPositive, hx0]
      · simp [JsNumber.sub, JsNumber.isPositive, hx0]
    | some y =>
      have hy := hnn _ _ hb
      by_cases hx0 : x = 0
      · by_cases hy0 : y = 0
        · simp [JsNumber.sub, JsNumber.isPositive, hx0, hy0]
        · have h1 : ¬ y < 0 := not_lt.2 hy
          have h2 : ¬ (1 : ℚ) < 0 := by norm_num
          simp [JsNumber.sub, JsNumber.isPositive, hx0, hy0, h1, h2]
      · by_cases hy0 : y = 0
        · have : 0 < x := lt_of_le_of_ne hx (Ne.symm hx0)
          simp [JsNumber.sub, JsNumber.isPositive, hx0, hy0, this]
        · simp [JsNumber.sub, JsNumber.isPositive, hx0, hy0]

theorem arraySort_proximity_eq_plain {distances : DistanceTable} (hnn : NonNegTable distances)
    (l : List Hotel) :
    arraySort (proximityCompare distances) l = arraySort (plainCompare distances) l := by
  unfold arraySort
  apply insertionSort_congr
  intro a b
  rw [proximityCompare_isPositive_eq hnn]

theorem arraySort_plain_eq (distances : DistanceTable) (l : List Hotel) :
    arraySort (plainCompare distances) l =
      l.insertionSort fun a b => extendedDistance distances a ≤ extendedDistance distances b := by
  unfold arraySort
  exact insertionSort_congr (plainCompare_not_positive_iff distances) l

theorem filter_orderedInsert_key {α : Type} {κ : Type} [LinearOrder κ] (key : α → κ) (d : κ)
    (a : α) (l : List α) :
    (l.orderedInsert (fun x y => key x ≤ key y) a).filter (fun x => key x = d) =
      (a :: l).filter (fun x => key x = d) := by
  induction l with
  | nil => rfl
  | cons b t ih =>
    by_cases hab : key a ≤ key b
    · simp only [List.orderedInsert, if_pos hab]
    · have hlt : key b < key a := not_le.1 hab
      simp only [List.orderedInsert, if_neg hab]
      rw [List.filter_cons, ih]
      by_cases had : key a = d
      · have hbd : ¬ key b = d := fun h => by rw [h, had] at hlt; exact lt_irrefl _ hlt
        simp [List.filter_cons, had, hbd]
      · by_cases hbd : key b = d
        · simp [List.filter_cons, had, hbd]
        · simp [List.filter_cons, had, hbd]

theorem filter_insertionSort_key {α : Type} {κ : Type} [LinearOrder κ] (key : α → κ) (d : κ)
    (l : List α) :
    (l.insertionSort (fun x y => key x ≤ key y)).filter (fun x => key x = d) =
      l.filter (fun x => key x = d) := by
  induction l with
  | nil => rfl
  | cons a t ih =>
    rw [List.insertionSort, filter_orderedInsert_key, List.filter_cons, List.filter_cons, ih]

theorem sorted_insertionSort_key {α : Type} {κ : Type} [LinearOrder κ] (key : α → κ)
    (l : List α) :
    (l.insertionSort (fun x y => key x ≤ key y)).Pairwise (fun x y => key x ≤ key y) := by
  haveI : IsTotal α (fun x y => key x ≤ key y) := ⟨fun x y => le_total (key x) (key y)⟩
  haveI : IsTrans α (fun x y => key x ≤ key y) := ⟨fun x y z hxy hyz => le_trans hxy hyz⟩
  exact List.sorted_insertionSort (fun x y => key x ≤ key y) l

/-- A list sorted by a key and listing, for every key value, the elements with that
key in a fixed order is determined by these two properties: every stable sort by the
key returns the same list. -/
theorem stable_sorted_unique {α : Type} {κ : Type} [LinearOrder κ] (key : α → κ) :
    ∀ (l₁ l₂ : List α),
      l₁.Pairwise (fun x y => key x ≤ key y) → l₂.Pairwise (fun x y => key x ≤ key y) →
      (∀ d, l₁.filter (fun x => key x = d) = l₂.filter (fun x => key x = d)) → l₁ = l₂ := by
  intro l₁
  induction l₁ with
  | nil =>
    intro l₂ _ _ h
    cases l₂ with
    | nil => rfl
    | cons b t =>
      have := h (key b)
      simp [List.filter_cons] at this
  | cons a t ih =>
    intro l₂ h₁ h₂ h
    cases l₂ with
    | nil =>
      have := h (key a)
      simp [List.filter_cons] at this
    | cons b u =>
      rw [List.pairwise_cons] at h₁ h₂
      have hab : key a ≤ key b := by
        have hb : b ∈ (a :: t).filter (fun x => key x = key b) := by
          rw [h (key b)]
          simp [List.filter_cons]
        rcases List.mem_cons.1 (List.mem_filter.1 hb).1 with hba | hbt
        · rw [hba]
        · exact h₁.1 b hbt
      have hba : key b ≤ key a := by
        have ha : a ∈ (b :: u).filter (fun x => key x = key a) := by
          rw [← h (key a)]
          simp [List.filter_cons]
        rcases List.mem_cons.1 (List.mem_filter.1 ha).1 with hab2 | hau
        · rw [hab2]
        · exact h₂.1 a hau
      have hk : key a = key b := le_antisymm hab hba
      have h0 := h (key a)
      simp only [List.filter_cons, hk, decide_True, if_true] at h0
      have hhead : a = b := (List.cons.inj h0).1
      subst hhead
      have htail : t = u := by
        apply ih u h₁.2 h₂.2
        intro d
        have hd := h d
        by_cases hda : key a = d
        · simp only [List.filter_cons, hda, decide_True, if_true] at hd
          exact (List.cons.inj hd).2
        · simpa [List.filter_cons, hda] using hd
      rw [htail]

theorem exampleDistances_nonNeg : NonNegTable exampleDistances := by
  intro area d h
  unfold exampleDistances at h
  split_ifs at h <;> cases h <;> norm_num

theorem geBound_iff (x : Int) (b : Option Int) :
    geBound x b = true ↔ ∃ n, b = some n ∧ n ≤ x := by
  cases b <;> simp [geBound]

theorem leBound_iff (x : Int) (b : Option Int) :
    leBound x b = true ↔ ∃ n, b = some n ∧ x ≤ n := by
  cases b <;> simp [leBound]

theorem contains_eq_true_iff (l : List String) (a : String) :
    l.contains a = true ↔ a ∈ l := by
  simp

theorem mem_condFilter (s : String) (p : Hotel → Bool) (l : List Hotel) (hotel : Hotel) :
    hotel ∈ (if s ≠ "" then l.filter p else l) ↔ hotel ∈ l ∧ (s = "" ∨ p hotel = true) := by
  by_cases hs : s = ""
  · simp [hs]
  · simp [hs, List.mem_filter]

/-! ## The claims about `handleSearch` -/

/-- C4, refuted as stated: with the minimum price text `12.5` a venue priced 12 is in
the filtered list, although 12 is below the bound the text denotes. -/
theorem fractional_bound_admits_lower_price :
    (⟨1, "A", 12, 100, ["Marriage"]⟩ : Hotel) ∈
        applyFilters
          ⟨[⟨1, "A", 12, 100, ["Marriage"]⟩], [⟨1, "A", 12, 100, ["Marriage"]⟩],
            fun _ => none, "A", "", "12.5", "", "", ""⟩ ∧
      meetsConstraints
          ⟨[⟨1, "A", 12, 100, ["Marriage"]⟩], [⟨1, "A", 12, 100, ["Marriage"]⟩],
            fun _ => none, "A", "", "12.5", "", "", ""⟩
          ⟨1, "A", 12, 100, ["Marriage"]⟩ = false ∧
      parseInt "12.5" = some 12 ∧ numeralOf "12.5" = some ⟨125, -1⟩ := by
  decide

/-- C4, amended: a venue is in the filtered list exactly when it is in the catalog and
satisfies every supplied constraint, where the empty text means that the constraint
is not supplied, the event constraint is membership in `supportedEvents`, and a
supplied numeric bound is the integer `parseInt` reads from its text, inclusive; a
supplied bound from which `parseInt` reads no integer is satisfied by no venue. -/
theorem filter_sound_and_complete (st : Dashboard) (hotel : Hotel) :
    hotel ∈ applyFilters st ↔
      hotel ∈ st.hotels ∧
      (st.eventFilter = "" ∨ st.eventFilter ∈ hotel.supportedEvents) ∧
      (st.minPrice = "" ∨ ∃ n, parseInt st.minPrice = some n ∧ n ≤ hotel.price) ∧
      (st.maxPrice = "" ∨ ∃ n, parseInt st.maxPrice = some n ∧ hotel.price ≤ n) ∧
      (st.minCapacity = "" ∨ ∃ n, parseInt st.minCapacity = some n ∧ n ≤ hotel.capacity) ∧
      (st.maxCapacity = "" ∨ ∃ n, parseInt st.maxCapacity = some n ∧ hotel.capacity ≤ n) := by
  unfold applyFilters
  simp only [mem_condFilter, geBound_iff, leBound_iff, contains_eq_true_iff, and_assoc]

/-- C5. Proximity ranking: for a distance table with non-negative entries the sorted
list is a permutation of the filtered list, its distances (an absent entry counting
as positive infinity) are non-decreasing, no unreachable venue precedes a reachable
one, and for every distance value the venues at that distance appear in the same
order as in the filtered list. -/
theorem proximity_ranking (distances : DistanceTable) (hnn : NonNegTable distances)
    (filtered : List Hotel) :
    (arraySort (proximityCompare distances) filtered).Perm filtered ∧
    (arraySort (proximityCompare distances) filtered).Pairwise
      (fun a b => extendedDistance distances a ≤ extendedDistance distances b) ∧
    (arraySort (proximityCompare distances) filtered).Pairwise
      (fun a b => distances a.area = none → distances b.area = none) ∧
    ∀ d : WithTop ℚ,
      (arraySort (proximityCompare distances) filtered).filter
          (fun h => extendedDistance distances h = d)
        = filtered.filter (fun h => extendedDistance distances h = d) := by
  have hsorted := sorted_insertionSort_key (extendedDistance distances) filtered
  rw [arraySort_proximity_eq_plain hnn, arraySort_plain_eq]
  refine ⟨List.perm_insertionSort _ _, hsorted, ?_, ?_⟩
  · refine hsorted.imp ?_
    intro a b hab ha
    unfold extendedDistance at hab
    rw [ha] at hab
    cases hb : distances b.area with
    | none => rfl
    | some y =>
      rw [hb] at hab
      exact absurd hab (by simp)
  · intro d
    exact filter_insertionSort_key (extendedDistance distances) d filtered

theorem proximity_ranking_witness :
    NonNegTable exampleDistances ∧
    arraySort (proximityCompare exampleDistances)
        [⟨1, "C", 900, 80, ["Birthday"]⟩, ⟨2, "A", 700, 60, ["Birthday"]⟩,
          ⟨3, "B", 800, 70, ["Birthday"]⟩]
      = [⟨2, "A", 700, 60, ["Birthday"]⟩, ⟨3, "B", 800, 70, ["Birthday"]⟩,
          ⟨1, "C", 900, 80, ["Birthday"]⟩] ∧
    (arraySort (proximityCompare exampleDistances)
        [⟨1, "C", 900, 80, ["Birthday"]⟩, ⟨2, "A", 700, 60, ["Birthday"]⟩,
          ⟨3, "B", 800, 70, ["Birthday"]⟩]).Perm
      [⟨1, "C", 900, 80, ["Birthday"]⟩, ⟨2, "A", 700, 60, ["Birthday"]⟩,
        ⟨3, "B", 800, 70, ["Birthday"]⟩] := by
  refine ⟨exampleDistances_nonNeg, ?_,
    (proximity_ranking exampleDistances exampleDistances_nonNeg
      [⟨1, "C", 900, 80, ["Birthday"]⟩, ⟨2, "A", 700, 60, ["Birthday"]⟩,
        ⟨3, "B", 800, 70, ["Birthday"]⟩]).1⟩
  simp [arraySort, proximityCompare, distanceOf, exampleDistances, JsNumber.sub,
    JsNumber.isPositive, List.insertionSort, List.orderedInsert]
  norm_num

/-- C6. The tests for a zero distance are subsumed by ascending order: for a distance
table with non-negative entries, sorting with the comparator of `handleSearch` gives
the same list as sorting with the plain comparator `d1 - d2`. -/
theorem zero_tie_break_subsumed (distances : DistanceTable) (hnn : NonNegTable distances)
    (venues : List Hotel) :
    arraySort (proximityCompare distances) venues = arraySort (plainCompare distances) venues :=
  arraySort_proximity_eq_plain hnn venues

theorem zero_tie_break_subsumed_witness :
    NonNegTable exampleDistances ∧
    arraySort (proximityCompare exampleDistances)
        [⟨1, "C", 900, 80, ["Birthday"]⟩, ⟨2, "A", 700, 60, ["Birthday"]⟩,
          ⟨4, "D", 500, 40, ["Birthday"]⟩, ⟨3, "B", 800, 70, ["Birthday"]⟩]
      = arraySort (plainCompare exampleDistances)
        [⟨1, "C", 900, 80, ["Birthday"]⟩, ⟨2, "A", 700, 60, ["Birthday"]⟩,
          ⟨4, "D", 500, 40, ["Birthday"]⟩, ⟨3, "B", 800, 70, ["Birthday"]⟩] :=
  ⟨exampleDistances_nonNeg, zero_tie_break_subsumed exampleDistances exampleDistances_nonNeg _⟩

/-- C7, refuted as stated: with no location selected and a minimum price of 50,
`handleSearch` leaves the displayed list as it was, both venues included, where the
catalog filtered by the constraint holds only the second venue; and it shows an
alert. -/
theorem invalid_location_keeps_displayed_list :
    (handleSearch (fun _ _ _ => none)
        ⟨[⟨1, "A", 10, 100, ["Marriage"]⟩, ⟨2, "B", 100, 200, ["Marriage"]⟩],
          [⟨1, "A", 10, 100, ["Marriage"]⟩, ⟨2, "B", 100, 200, ["Marriage"]⟩],
          fun _ => none, "", "", "50", "", "", ""⟩).1.filteredHotels
      = [⟨1, "A", 10, 100, ["Marriage"]⟩, ⟨2, "B", 100, 200, ["Marriage"]⟩] ∧
    applyFilters
        ⟨[⟨1, "A", 10, 100, ["Marriage"]⟩, ⟨2, "B", 100, 200, ["Marriage"]⟩],
          [⟨1, "A", 10, 100, ["Marriage"]⟩, ⟨2, "B", 100, 200, ["Marriage"]⟩],
          fun _ => none, "", "", "50", "", "", ""⟩
      = [⟨2, "B", 100, 200, ["Marriage"]⟩] ∧
    (handleSearch (fun _ _ _ => none)
        ⟨[⟨1, "A", 10, 100, ["Marriage"]⟩, ⟨2, "B", 100, 200, ["Marriage"]⟩],
          [⟨1, "A", 10, 100, ["Marriage"]⟩, ⟨2, "B", 100, 200, ["Marriage"]⟩],
          fun _ => none, "", "", "50", "", "", ""⟩).2
      = some "Please select a valid location." := by
  decide

/-- C7, amended: when the selected location is empty or is not a key of the graph,
`handleSearch` shows the alert `Please select a valid location.` and returns without
filtering or ranking, so the component state, the displayed list included, stays as
it was. -/
theorem invalid_location_alert (dijkstra : Graph → String → DistanceTable) (st : Dashboard)
    (h : st.location = "" ∨ st.graph st.location = none) :
    handleSearch dijkstra st = (st, some "Please select a valid location.") := by
  unfold handleSearch
  rw [if_pos]
  rcases h with h | h
  · exact Or.inl h
  · exact Or.inr (by rw [h]; rfl)

theorem invalid_location_alert_witness :
    (handleSearch (fun _ _ _ => none)
        ⟨[⟨1, "A", 10, 100, ["Marriage"]⟩, ⟨2, "B", 100, 200, ["Marriage"]⟩],
          [⟨2, "B", 100, 200, ["Marriage"]⟩],
          fun _ => none, "Tilakwadi", "", "50", "", "", ""⟩).1.filteredHotels
      = [⟨2, "B", 100, 200, ["Marriage"]⟩] :=
  congrArg (fun r => r.1.filteredHotels)
    (invalid_location_alert (fun _ _ _ => none)
      ⟨[⟨1, "A", 10, 100, ["Marriage"]⟩, ⟨2, "B", 100, 200, ["Marriage"]⟩],
        [⟨2, "B", 100, 200, ["Marriage"]⟩],
        fun _ => none, "Tilakwadi", "", "50", "", "", ""⟩ (Or.inr rfl))

/-! ## Theorems: OTP redemption and signup -/

theorem submitSignup_missing {hash : String → String} {now : Int} {st : AuthState}
    {req : SignupRequest}
    (hf : req.email = "" ∨ req.username = "" ∨ req.password = "" ∨ req.otp = "") :
    submitSignup hash now st req = (st, .allFieldsRequired) := by
  unfold submitSignup
  rw [if_pos hf]

theorem submitSignup_noRecord {hash : String → String} {now : Int} {st : AuthState}
    {req : SignupRequest}
    (hf : ¬ (req.email = "" ∨ req.username = "" ∨ req.password = "" ∨ req.otp = ""))
    (hr : findOtp st.otps req.email = none) :
    submitSignup hash now st req = (st, .noOtpRequested) := by
  unfold submitSignup
  rw [if_neg hf]
  simp only [hr]

theorem submitSignup_expired {hash : String → String} {now : Int} {st : AuthState}
    {req : SignupRequest} {r : OtpRecord}
    (hf : ¬ (req.email = "" ∨ req.username = "" ∨ req.password = "" ∨ req.otp = ""))
    (hr : findOtp st.otps req.email = some r) (he : r.expiresAt < now) :
    submitSignup hash now st req =
      ({ st with otps := deleteOtp st.otps req.email }, .otpExpired) := by
  unfold submitSignup
  rw [if_neg hf]
  simp only [hr, if_pos he]

theorem submitSignup_mismatch {hash : String → String} {now : Int} {st : AuthState}
    {req : SignupRequest} {r : OtpRecord}
    (hf : ¬ (req.email = "" ∨ req.username = "" ∨ req.password = "" ∨ req.otp = ""))
    (hr : findOtp st.otps req.email = some r) (he : ¬ r.expiresAt < now)
    (hm : r.otp ≠ req.otp) :
    submitSignup hash now st req = (st, .invalidOtp) := by
  unfold submitSignup
  rw [if_neg hf]
  simp only [hr, if_neg he, if_pos hm]

theorem submitSignup_taken {hash : String → String} {now : Int} {st : AuthState}
    {req : SignupRequest} {r : OtpRecord}
    (hf : ¬ (req.email = "" ∨ req.username = "" ∨ req.password = "" ∨ req.otp = ""))
    (hr : findOtp st.otps req.email = some r) (he : ¬ r.expiresAt < now)
    (hm : r.otp = req.otp) (hu : userExists st.users req.email = true) :
    submitSignup hash now st req =
      ({ st with otps := deleteOtp st.otps req.email }, .emailAlreadyRegistered) := by
  unfold submitSignup
  rw [if_neg hf]
  simp only [hr, if_neg he, hm, ne_eq, not_true_eq_false, if_false, hu, if_true]

theorem submitSignup_created {hash : String → String} {now : Int} {st : AuthState}
    {req : SignupRequest} {r : OtpRecord}
    (hf : ¬ (req.email = "" ∨ req.username = "" ∨ req.password = "" ∨ req.otp = ""))
    (hr : findOtp st.otps req.email = some r) (he : ¬ r.expiresAt < now)
    (hm : r.otp = req.otp) (hu : userExists st.users req.email = false) :
    submitSignup hash now st req =
      ({ otps := deleteOtp st.otps req.email,
         users := st.users ++
          [{ email := req.email, username := req.username, password := hash req.password }] },
        .signupSuccessful) := by
  unfold submitSignup
  rw [if_neg hf]
  simp only [hr, if_neg he, hm, ne_eq, not_true_eq_false, if_false, hu, Bool.false_eq_true]

theorem fields_present {a b c d : String} (h : a ≠ "" ∧ b ≠ "" ∧ c ≠ "" ∧ d ≠ "") :
    ¬ (a = "" ∨ b = "" ∨ c = "" ∨ d = "") := by
  rintro (h1 | h1 | h1 | h1)
  · exact h.1 h1
  · exact h.2.1 h1
  · exact h.2.2.1 h1
  · exact h.2.2.2 h1

theorem findOtp_email {otps : List OtpRecord} {email : String} {r : OtpRecord}
    (h : findOtp otps email = some r) : r.email = email := by
  unfold findOtp at h
  have := List.find?_some h
  simpa using this

theorem deleteOtp_eq_erase {otps : List OtpRecord} {email : String} {r : OtpRecord}
    (h : findOtp otps email = some r) : deleteOtp otps email = otps.erase r := by
  induction otps with
  | nil => simp [findOtp] at h
  | cons a l ih =>
    by_cases ha : a.email = email
    · have hr : a = r := by
        simpa [findOtp, List.find?_cons, ha] using h
      subst hr
      simp [deleteOtp, List.eraseP_cons, ha]
    · have hl : findOtp l email = some r := by
        simpa [findOtp, List.find?_cons, ha] using h
      have hne : a ≠ r := by
        intro har
        rw [har] at ha
        exact ha (findOtp_email hl)
      have ih2 := ih hl
      unfold deleteOtp at ih2 ⊢
      simp [List.eraseP_cons, ha, List.erase_cons, hne, ih2]

theorem findOtp_eq_none_of_not_mem {otps : List OtpRecord} {email : String}
    (h : email ∉ otps.map fun r => r.email) : findOtp otps email = none := by
  unfold findOtp
  rw [List.find?_eq_none]
  intro r hr hre
  exact h (List.mem_map.2 ⟨r, hr, by simpa using hre⟩)

theorem findOtp_deleteOtp {otps : List OtpRecord} (email : String)
    (h : (otps.map fun r => r.email).Nodup) : findOtp (deleteOtp otps email) email = none := by
  induction otps with
  | nil => rfl
  | cons a l ih =>
    rw [List.map_cons, List.nodup_cons] at h
    by_cases ha : a.email = email
    · have : deleteOtp (a :: l) email = l := by simp [deleteOtp, List.eraseP_cons, ha]
      rw [this]
      apply findOtp_eq_none_of_not_mem
      rw [← ha]
      exact h.1
    · have : deleteOtp (a :: l) email = a :: deleteOtp l email := by
        simp [deleteOtp, List.eraseP_cons, ha]
      rw [this]
      have ih2 := ih h.2
      unfold findOtp at ih2 ⊢
      simp [List.find?_cons, ha, ih2]

theorem findOtp_findOneAndUpdateOtp (email otp : String) (expiresAt : Int)
    (otps : List OtpRecord) :
    findOtp (findOneAndUpdateOtp email otp expiresAt otps) email
      = some { email := email, otp := otp, expiresAt := expiresAt } := by
  induction otps with
  | nil => simp [findOneAndUpdateOtp, findOtp]
  | cons a l ih =>
    by_cases ha : a.email = email
    · simp [findOneAndUpdateOtp, findOtp, ha]
    · unfold findOtp at ih ⊢
      simp [findOneAndUpdateOtp, ha, List.find?_cons, ih]

theorem sendOtp_state (random : ℚ) (now : Int) (mailOk : Bool) (st : AuthState)
    {email : String} (h : email ≠ "") :
    (sendOtp random now mailOk st email).1 =
      { st with otps :=
          findOneAndUpdateOtp email (generateOTP random) (now + 10 * 60 * 1000) st.otps } := by
  unfold sendOtp
  rw [if_neg h]
  cases mailOk <;> rfl

theorem sendOtp_users (random : ℚ) (now : Int) (mailOk : Bool) (st : AuthState)
    (email : String) : (sendOtp random now mailOk st email).1.users = st.users := by
  by_cases h : email = ""
  · simp [sendOtp, h]
  · rw [sendOtp_state random now mailOk st h]

theorem findOneAndUpdateOtp_emails (email otp : String) (expiresAt : Int)
    (otps : List OtpRecord) :
    (findOneAndUpdateOtp email otp expiresAt otps).map (fun r => r.email) =
      if email ∈ otps.map (fun r => r.email) then otps.map (fun r => r.email)
      else otps.map (fun r => r.email) ++ [email] := by
  induction otps with
  | nil => simp [findOneAndUpdateOtp]
  | cons a l ih =>
    by_cases ha : a.email = email
    · simp [findOneAndUpdateOtp, ha]
    · have hne : ¬ email = a.email := fun h => ha h.symm
      simp only [findOneAndUpdateOtp, if_neg ha, List.map_cons, ih, List.mem_cons, hne,
        false_or]
      split <;> simp

theorem findOneAndUpdateOtp_nodup (email otp : String) (expiresAt : Int)
    {otps : List OtpRecord} (h : (otps.map fun r => r.email).Nodup) :
    ((findOneAndUpdateOtp email otp expiresAt otps).map fun r => r.email).Nodup := by
  rw [findOneAndUpdateOtp_emails]
  split
  · exact h
  · rename_i hmem
    refine List.Nodup.append h (List.nodup_singleton _) ?_
    intro x hx hx2
    rw [List.mem_singleton] at hx2
    subst hx2
    exact hmem hx

theorem deleteOtp_nodup (email : String) {otps : List OtpRecord}
    (h : (otps.map fun r => r.email).Nodup) :
    ((deleteOtp otps email).map fun r => r.email).Nodup :=
  List.Nodup.sublist ((List.eraseP_sublist otps).map _) h

theorem submitSignup_otps (hash : String → String) (now : Int) (st : AuthState)
    (req : SignupRequest) :
    (submitSignup hash now st req).1.otps = st.otps ∨
      (submitSignup hash now st req).1.otps = deleteOtp st.otps req.email := by
  by_cases hf : req.email = "" ∨ req.username = "" ∨ req.password = "" ∨ req.otp = ""
  · rw [submitSignup_missing hf]; exact Or.inl rfl
  · cases hr : findOtp st.otps req.email with
    | none => rw [submitSignup_noRecord hf hr]; exact Or.inl rfl
    | some r =>
      by_cases he : r.expiresAt < now
      · rw [submitSignup_expired hf hr he]; exact Or.inr rfl
      · by_cases hm : r.otp = req.otp
        · cases hu : userExists st.users req.email with
          | true => rw [submitSignup_taken hf hr he hm hu]; exact Or.inr rfl
          | false => rw [submitSignup_created hf hr he hm hu]; exact Or.inr rfl
        · rw [submitSignup_mismatch hf hr he hm]; exact Or.inl rfl

theorem userExists_eq_false {users : List User} {email : String}
    (h : userExists users email = false) : email ∉ users.map fun u => u.email := by
  unfold userExists at h
  rw [List.any_eq_false] at h
  intro hmem
  rcases List.mem_map.1 hmem with ⟨u, hu, hue⟩
  exact h u hu (by simp [hue])

theorem submitSignup_users_nodup (hash : String → String) (now : Int) {st : AuthState}
    (req : SignupRequest) (h : (st.users.map fun u => u.email).Nodup) :
    ((submitSignup hash now st req).1.users.map fun u => u.email).Nodup := by
  by_cases hf : req.email = "" ∨ req.username = "" ∨ req.password = "" ∨ req.otp = ""
  · rw [submitSignup_missing hf]; exact h
  · cases hr : findOtp st.otps req.email with
    | none => rw [submitSignup_noRecord hf hr]; exact h
    | some r =>
      by_cases he : r.expiresAt < now
      · rw [submitSignup_expired hf hr he]; exact h
      · by_cases hm : r.otp = req.otp
        · cases hu : userExists st.users req.email with
          | true => rw [submitSignup_taken hf hr he hm hu]; exact h
          | false =>
            rw [submitSignup_created hf hr he hm hu]
            simp only [List.map_append, List.map_cons, List.map_nil]
            refine List.Nodup.append h (List.nodup_singleton _) ?_
            intro x hx hx2
            rw [List.mem_singleton] at hx2
            subst hx2
            exact userExists_eq_false hu hx
        · rw [submitSignup_mismatch hf hr he hm]; exact h

theorem authStep_users_nodup (hash : String → String) {st : AuthState} (call : AuthCall)
    (h : (st.users.map fun u => u.email).Nodup) :
    ((authStep hash st call).users.map fun u => u.email).Nodup := by
  cases call with
  | sendOtp random now mailOk email =>
    simp only [authStep, sendOtp_users]
    exact h
  | submitSignup now req => exact submitSignup_users_nodup hash now req h

theorem authRun_users_nodup (hash : String → String) (calls : List AuthCall) :
    ∀ {st : AuthState}, (st.users.map fun u => u.email).Nodup →
      ((authRun hash st calls).users.map fun u => u.email).Nodup := by
  induction calls with
  | nil => intro st h; exact h
  | cons call rest ih =>
    intro st h
    exact ih (authStep_users_nodup hash call h)

theorem authStep_otps_nodup (hash : String → String) {st : AuthState} (call : AuthCall)
    (h : (st.otps.map fun r => r.email).Nodup) :
    ((authStep hash st call).otps.map fun r => r.email).Nodup := by
  cases call with
  | sendOtp random now mailOk email =>
    by_cases he : email = ""
    · simp only [authStep, sendOtp, he, if_true]
      exact h
    · simp only [authStep, sendOtp_state random now mailOk st he]
      exact findOneAndUpdateOtp_nodup _ _ _ h
  | submitSignup now req =>
    rcases submitSignup_otps hash now st req with h2 | h2
    · simp only [authStep, h2]; exact h
    · simp only [authStep, h2]; exact deleteOtp_nodup _ h

/-- Starting from an empty `OTP` collection, the two handlers keep at most one record
per email. -/
theorem authRun_otps_nodup (hash : String → String) (calls : List AuthCall) :
    ∀ {st : AuthState}, (st.otps.map fun r => r.email).Nodup →
      ((authRun hash st calls).otps.map fun r => r.email).Nodup := by
  induction calls with
  | nil => intro st h; exact h
  | cons call rest ih =>
    intro st h
    exact ih (authStep_otps_nodup hash call h)

/-! ## The claims about OTP redemption and signup -/

/-- C8. OTP redemption in `/submit-signup`, all request fields present: without a
record for the email the answer is `No OTP requested` and nothing changes; with a
record whose expiry lies before the current time the answer is `OTP expired` and the
record is deleted; with an unexpired record and a different code the answer is
`Invalid OTP` and nothing changes; otherwise the record is deleted and the handler
goes on to account creation (answering `Signup successful` or
`Email already registered`). When the store holds at most one record per email, a
further redemption for the email after a successful or an expired one answers
`No OTP requested`. -/
theorem otp_redemption (hash : String → String) (now : Int) (st : AuthState)
    (req : SignupRequest)
    (hf : req.email ≠ "" ∧ req.username ≠ "" ∧ req.password ≠ "" ∧ req.otp ≠ "") :
    (findOtp st.otps req.email = none →
      submitSignup hash now st req = (st, .noOtpRequested)) ∧
    (∀ r, findOtp st.otps req.email = some r →
      (r.expiresAt < now →
        submitSignup hash now st req = ({ st with otps := st.otps.erase r }, .otpExpired)) ∧
      (¬ r.expiresAt < now → r.otp ≠ req.otp →
        submitSignup hash now st req = (st, .invalidOtp)) ∧
      (¬ r.expiresAt < now → r.otp = req.otp →
        (submitSignup hash now st req).1.otps = st.otps.erase r ∧
        ((submitSignup hash now st req).2 = .signupSuccessful ∨
          (submitSignup hash now st req).2 = .emailAlreadyRegistered))) ∧
    (∀ (later : Int) (again : SignupRequest),
      (st.otps.map fun r => r.email).Nodup →
      ((submitSignup hash now st req).2 = .signupSuccessful ∨
        (submitSignup hash now st req).2 = .emailAlreadyRegistered ∨
        (submitSignup hash now st req).2 = .otpExpired) →
      again.email = req.email →
      (again.username ≠ "" ∧ again.password ≠ "" ∧ again.otp ≠ "") →
      submitSignup hash later (submitSignup hash now st req).1 again
        = ((submitSignup hash now st req).1, .noOtpRequested)) := by
  have hf2 := fields_present hf
  refine ⟨fun hr => submitSignup_noRecord hf2 hr, ?_, ?_⟩
  · intro r hr
    refine ⟨?_, ?_, ?_⟩
    · intro he
      rw [submitSignup_expired hf2 hr he, deleteOtp_eq_erase hr]
    · intro he hm
      exact submitSignup_mismatch hf2 hr he hm
    · intro he hm
      cases hu : userExists st.users req.email with
      | true =>
        rw [submitSignup_taken hf2 hr he hm hu, deleteOtp_eq_erase hr]
        exact ⟨rfl, Or.inr rfl⟩
      | false =>
        rw [submitSignup_created hf2 hr he hm hu, deleteOtp_eq_erase hr]
        exact ⟨rfl, Or.inl rfl⟩
  · intro later again hnd hres hemail hfa
    have hfa2 : ¬ (again.email = "" ∨ again.username = "" ∨ again.password = "" ∨
        again.otp = "") := by
      apply fields_present
      exact ⟨by rw [hemail]; exact hf.1, hfa⟩
    apply submitSignup_noRecord hfa2
    have hdel : (submitSignup hash now st req).1.otps = deleteOtp st.otps req.email := by
      cases hr : findOtp st.otps req.email with
      | none =>
        rw [submitSignup_noRecord hf2 hr] at hres
        rcases hres with h | h | h <;> cases h
      | some r =>
        by_cases he : r.expiresAt < now
        · rw [submitSignup_expired hf2 hr he]
        · by_cases hm : r.otp = req.otp
          · cases hu : userExists st.users req.email with
            | true => rw [submitSignup_taken hf2 hr he hm hu]
            | false => rw [submitSignup_created hf2 hr he hm hu]
          · rw [submitSignup_mismatch hf2 hr he hm] at hres
            rcases hres with h | h | h <;> cases h
    rw [hdel, hemail]
    exact findOtp_deleteOtp req.email hnd

theorem otp_redemption_witness :
    submitSignup (fun p => p) 7000
        (submitSignup (fun p => p) 5000
          ⟨[⟨"a@example.com", "123456", 601000⟩], []⟩
          ⟨"a@example.com", "alice", "secret", "123456"⟩).1
        ⟨"a@example.com", "alice", "secret", "123456"⟩
      = ((submitSignup (fun p => p) 5000
          ⟨[⟨"a@example.com", "123456", 601000⟩], []⟩
          ⟨"a@example.com", "alice", "secret", "123456"⟩).1, .noOtpRequested) :=
  (otp_redemption (fun p => p) 5000 ⟨[⟨"a@example.com", "123456", 601000⟩], []⟩
    ⟨"a@example.com", "alice", "secret", "123456"⟩ (by decide)).2.2 7000
    ⟨"a@example.com", "alice", "secret", "123456"⟩ (by decide) (by decide) rfl (by decide)

/-- C9, refuted as stated: `generateOTP` can return the same code for two values of
`Math.random()`, and then a signup submitting the first code after the second
`/send-otp` succeeds. -/
theorem reissue_with_equal_code_succeeds :
    generateOTP 0 = "100000" ∧ generateOTP (1 / 1800000) = "100000" ∧
    (submitSignup (fun p => p) 5000
      (sendOtp (1 / 1800000) 2000 true (sendOtp 0 1000 true ⟨[], []⟩ "a@example.com").1
        "a@example.com").1
      ⟨"a@example.com", "alice", "secret", generateOTP 0⟩).2 = .signupSuccessful := by
  have h0 : generateOTP 0 = "100000" := by
    simp [generateOTP]
    rfl
  have hfloor : ⌊(100000 : ℚ) + 1 / 1800000 * 900000⌋ = 100000 := by
    rw [Int.floor_eq_iff]
    norm_num
  have h1 : generateOTP (1 / 1800000) = "100000" := by
    unfold generateOTP
    rw [hfloor]
    rfl
  refine ⟨h0, h1, ?_⟩
  simp only [sendOtp, h0, h1]
  decide

/-- C9, amended: when the second `/send-otp` for an email issues a code different from
the first, a following signup for that email that submits the first code does not
succeed: it answers `Invalid OTP`, or `OTP expired` when the second code has expired
by then, and no account is created. -/
theorem reissue_invalidates_first_code (hash : String → String) (st : AuthState)
    (random1 random2 : ℚ) (now1 now2 now : Int) (mailOk1 mailOk2 : Bool)
    (req : SignupRequest)
    (hf : req.email ≠ "" ∧ req.username ≠ "" ∧ req.password ≠ "" ∧ req.otp ≠ "")
    (hotp : req.otp = generateOTP random1)
    (hne : generateOTP random1 ≠ generateOTP random2) :
    (submitSignup hash now
        (sendOtp random2 now2 mailOk2 (sendOtp random1 now1 mailOk1 st req.email).1
          req.email).1 req).2
      = (if now2 + 10 * 60 * 1000 < now then .otpExpired else .invalidOtp) ∧
    (submitSignup hash now
        (sendOtp random2 now2 mailOk2 (sendOtp random1 now1 mailOk1 st req.email).1
          req.email).1 req).1.users = st.users := by
  have hf2 := fields_present hf
  rw [sendOtp_state random2 now2 mailOk2 (sendOtp random1 now1 mailOk1 st req.email).1 hf.1,
    sendOtp_state random1 now1 mailOk1 st hf.1]
  have hr := findOtp_findOneAndUpdateOtp req.email (generateOTP random2)
    (now2 + 10 * 60 * 1000)
    (findOneAndUpdateOtp req.email (generateOTP random1) (now1 + 10 * 60 * 1000) st.otps)
  by_cases he : now2 + 10 * 60 * 1000 < now
  · rw [submitSignup_expired hf2 hr he, if_pos he]
    exact ⟨rfl, rfl⟩
  · rw [submitSignup_mismatch hf2 hr he (by rw [hotp]; exact fun h => hne h.symm), if_neg he]
    exact ⟨rfl, rfl⟩

theorem reissue_invalidates_first_code_witness :
    (submitSignup (fun p => p) 5000
        (sendOtp (1 / 2) 2000 true (sendOtp 0 1000 true ⟨[], []⟩ "a@example.com").1
          "a@example.com").1
        ⟨"a@example.com", "alice", "secret", "100000"⟩).2
      = (if (2000 : Int) + 10 * 60 * 1000 < 5000 then .otpExpired else .invalidOtp) := by
  have h0 : generateOTP 0 = "100000" := by
    simp [generateOTP]
    rfl
  have h1 : generateOTP (1 / 2) = "550000" := by
    norm_num [generateOTP]
    rfl
  exact (reissue_invalidates_first_code (fun p => p) ⟨[], []⟩ 0 (1 / 2) 1000 2000 5000 true
    true ⟨"a@example.com", "alice", "secret", "100000"⟩ (by decide) h0.symm
    (by rw [h0, h1]; decide)).1

/-- C10. Email uniqueness: when an account with the email exists and a matching,
unexpired OTP record for it is stored, `/submit-signup` answers
`Email already registered` and leaves the accounts unchanged; and in every state
reached from an empty account collection by `/send-otp` and `/submit-signup` calls
executed one after another, no two accounts share an email. -/
theorem email_uniqueness :
    (∀ (hash : String → String) (now : Int) (st : AuthState) (req : SignupRequest)
        (r : OtpRecord),
      (req.email ≠ "" ∧ req.username ≠ "" ∧ req.password ≠ "" ∧ req.otp ≠ "") →
      findOtp st.otps req.email = some r → ¬ r.expiresAt < now → r.otp = req.otp →
      userExists st.users req.email = true →
      (submitSignup hash now st req).2 = .emailAlreadyRegistered ∧
        (submitSignup hash now st req).1.users = st.users) ∧
    (∀ (hash : String → String) (otps : List OtpRecord) (calls : List AuthCall),
      ((authRun hash ⟨otps, []⟩ calls).users.map fun u => u.email).Nodup) := by
  refine ⟨?_, ?_⟩
  · intro hash now st req r hf hr he hm hu
    rw [submitSignup_taken (fields_present hf) hr he hm hu]
    exact ⟨rfl, rfl⟩
  · intro hash otps calls
    exact authRun_users_nodup hash calls (by simp)

theorem email_uniqueness_witness :
    ((submitSignup (fun p => p) 5000
        ⟨[⟨"a@example.com", "123456", 601000⟩], [⟨"a@example.com", "alice", "secret"⟩]⟩
        ⟨"a@example.com", "mallory", "other", "123456"⟩).2 = .emailAlreadyRegistered ∧
      (submitSignup (fun p => p) 5000
        ⟨[⟨"a@example.com", "123456", 601000⟩], [⟨"a@example.com", "alice", "secret"⟩]⟩
        ⟨"a@example.com", "mallory", "other", "123456"⟩).1.users
        = [⟨"a@example.com", "alice", "secret"⟩]) ∧
    ((authRun (fun p => p) ⟨[⟨"a@example.com", "123456", 601000⟩], []⟩
        [.submitSignup 5000 ⟨"a@example.com", "alice", "secret", "123456"⟩,
         .sendOtp 0 6000 true "a@example.com",
         .submitSignup 7000 ⟨"a@example.com", "mallory", "other", "100000"⟩]).users.map
      fun u => u.email).Nodup :=
  ⟨email_uniqueness.1 (fun p => p) 5000
      ⟨[⟨"a@example.com", "123456", 601000⟩], [⟨"a@example.com", "alice", "secret"⟩]⟩
      ⟨"a@example.com", "mallory", "other", "123456"⟩ ⟨"a@example.com", "123456", 601000⟩
      (by decide) (by decide) (by decide) rfl (by decide),
    email_uniqueness.2 (fun p => p) [⟨"a@example.com", "123456", 601000⟩] _⟩

/-! ## The claim about isolation between venues -/

theorem bookDate_other_collection (collectionOf : String → String)
    (newDate : String → Option Int) (db : Ledgers) (req : BookRequest) {collection : String}
    (h : collection ≠ collectionOf (getHotelBookingModel req.hotelName)) :
    (bookDate collectionOf newDate db req).1 collection = db collection := by
  by_cases hf : req.name = "" ∨ req.email = "" ∨ req.selectedDate = "" ∨ req.event = ""
  · rw [bookDate_missing hf]
  · cases hd : newDate req.selectedDate with
    | none => rw [bookDate_invalid hf hd]
    | some d =>
      cases hc : findOneByDate (db (collectionOf (getHotelBookingModel req.hotelName))) d with
      | some c => rw [bookDate_conflict hf hd hc]
      | none =>
        rw [bookDate_free hf hd hc]
        unfold saveBooking
        exact Function.update_noteq h _ _

theorem bookDate_response_congr (collectionOf : String → String)
    (newDate : String → Option Int) {db₁ db₂ : Ledgers} (req : BookRequest)
    (h : db₁ (collectionOf (getHotelBookingModel req.hotelName))
      = db₂ (collectionOf (getHotelBookingModel req.hotelName))) :
    (bookDate collectionOf newDate db₁ req).2 = (bookDate collectionOf newDate db₂ req).2 := by
  by_cases hf : req.name = "" ∨ req.email = "" ∨ req.selectedDate = "" ∨ req.event = ""
  · rw [bookDate_missing hf, bookDate_missing hf]
  · cases hd : newDate req.selectedDate with
    | none => rw [bookDate_invalid hf hd, bookDate_invalid hf hd]
    | some d =>
      cases hc : findOneByDate (db₂ (collectionOf (getHotelBookingModel req.hotelName))) d with
      | some c =>
        rw [bookDate_conflict hf hd hc, bookDate_conflict hf hd (h ▸ hc)]
      | none =>
        rw [bookDate_free hf hd hc, bookDate_free hf hd (h ▸ hc)]

theorem bookDate_conflict_cause {collectionOf : String → String}
    {newDate : String → Option Int} {db : Ledgers}
    {req : BookRequest} (h : (bookDate collectionOf newDate db req).2 = .dateAlreadyBooked) :
    ∃ b ∈ db (collectionOf (getHotelBookingModel req.hotelName)),
      newDate req.selectedDate = some b.selectedDate := by
  by_cases hf : req.name = "" ∨ req.email = "" ∨ req.selectedDate = "" ∨ req.event = ""
  · rw [bookDate_missing hf] at h; cases h
  · cases hd : newDate req.selectedDate with
    | none => rw [bookDate_invalid hf hd] at h; cases h
    | some d =>
      cases hc : findOneByDate (db (collectionOf (getHotelBookingModel req.hotelName))) d with
      | some c =>
        unfold findOneByDate at hc
        have hmem := List.mem_of_find?_eq_some hc
        have hdate := List.find?_some hc
        exact ⟨c, hmem, by simp at hdate; rw [hdate]⟩
      | none => rw [bookDate_free hf hd hc] at h; cases h

/-- Two venue identifiers with the same model name have the same ledger, whatever the
naming of collections. -/
theorem same_model_same_ledger (collectionOf : String → String) (db : Ledgers)
    (h₁ h₂ : String) (h : getHotelBookingModel h₁ = getHotelBookingModel h₂) :
    bookedDates collectionOf db h₁ = bookedDates collectionOf db h₂ := by
  unfold bookedDates
  rw [h]

/-- C11, refuted as stated: distinct venue identifiers can select the same ledger. The
identifiers `Hall X` and `HallX` have the same model name, and `HallX` and `hallx`
have model names that are stored in the same collection. In both cases a booking for
the first identifier appears in the booked dates of the second, and a booking of the
same date for the second, which succeeds on empty ledgers, is then rejected with
`Date already booked`. -/
theorem distinct_identifiers_share_ledger :
    ("Hall X" ≠ "HallX" ∧
      getHotelBookingModel "Hall X" = getHotelBookingModel "HallX" ∧
      bookedDates lowerCaseCollection emptyLedgers "HallX" = [] ∧
      bookedDates lowerCaseCollection
        (bookDate lowerCaseCollection isoDate emptyLedgers
          ⟨"Hall X", "userA", "a@example.com", "2025-05-01", "Marriage"⟩).1 "HallX"
        = [1746057600000] ∧
      (bookDate lowerCaseCollection isoDate emptyLedgers
        ⟨"HallX", "userB", "b@example.com", "2025-05-01", "Birthday"⟩).2
        = .bookingSuccessful ∧
      (bookDate lowerCaseCollection isoDate
        (bookDate lowerCaseCollection isoDate emptyLedgers
          ⟨"Hall X", "userA", "a@example.com", "2025-05-01", "Marriage"⟩).1
        ⟨"HallX", "userB", "b@example.com", "2025-05-01", "Birthday"⟩).2
        = .dateAlreadyBooked) ∧
    ("HallX" ≠ "hallx" ∧
      getHotelBookingModel "HallX" ≠ getHotelBookingModel "hallx" ∧
      lowerCaseCollection (getHotelBookingModel "HallX")
        = lowerCaseCollection (getHotelBookingModel "hallx") ∧
      bookedDates lowerCaseCollection emptyLedgers "hallx" = [] ∧
      bookedDates lowerCaseCollection
        (bookDate lowerCaseCollection isoDate emptyLedgers
          ⟨"HallX", "userA", "a@example.com", "2025-05-01", "Marriage"⟩).1 "hallx"
        = [1746057600000] ∧
      (bookDate lowerCaseCollection isoDate emptyLedgers
        ⟨"hallx", "userB", "b@example.com", "2025-05-01", "Birthday"⟩).2
        = .bookingSuccessful ∧
      (bookDate lowerCaseCollection isoDate
        (bookDate lowerCaseCollection isoDate emptyLedgers
          ⟨"HallX", "userA", "a@example.com", "2025-05-01", "Marriage"⟩).1
        ⟨"hallx", "userB", "b@example.com", "2025-05-01", "Birthday"⟩).2
        = .dateAlreadyBooked) := by
  decide

/-- C11, amended: for two venue identifiers whose ledgers are different collections
(the collection is the one Mongoose names after the model name, which is the
identifier with all white space removed, followed by `Bookings`) and every ledger
state, a book-date call for the first leaves the booked dates of the second unchanged
and does not change the answer of a book-date call for the second; and a call is
rejected with `Date already booked` only because of an entry in the ledger of its own
venue. -/
theorem ledger_isolation (collectionOf : String → String) (newDate : String → Option Int)
    (db : Ledgers) (first : BookRequest) (other : String)
    (h : collectionOf (getHotelBookingModel first.hotelName)
      ≠ collectionOf (getHotelBookingModel other)) :
    bookedDates collectionOf (bookDate collectionOf newDate db first).1 other
      = bookedDates collectionOf db other ∧
    (∀ req : BookRequest, req.hotelName = other →
      (bookDate collectionOf newDate (bookDate collectionOf newDate db first).1 req).2
        = (bookDate collectionOf newDate db req).2) ∧
    (∀ req : BookRequest, req.hotelName = other →
      (bookDate collectionOf newDate (bookDate collectionOf newDate db first).1 req).2
        = .dateAlreadyBooked →
      ∃ b ∈ db (collectionOf (getHotelBookingModel other)),
        newDate req.selectedDate = some b.selectedDate) := by
  have hkeep := bookDate_other_collection collectionOf newDate db first (Ne.symm h)
  refine ⟨?_, ?_, ?_⟩
  · unfold bookedDates
    rw [hkeep]
  · intro req hreq
    apply bookDate_response_congr
    rw [hreq]
    exact hkeep
  · intro req hreq hconf
    obtain ⟨b, hb, hbd⟩ := bookDate_conflict_cause hconf
    rw [hreq, hkeep] at hb
    exact ⟨b, hb, hbd⟩

theorem ledger_isolation_witness :
    bookedDates lowerCaseCollection
        (bookDate lowerCaseCollection isoDate emptyLedgers
          ⟨"Hall X", "userA", "a@example.com", "2025-05-01", "Marriage"⟩).1 "HallY"
      = bookedDates lowerCaseCollection emptyLedgers "HallY" ∧
    (bookDate lowerCaseCollection isoDate
        (bookDate lowerCaseCollection isoDate emptyLedgers
          ⟨"Hall X", "userA", "a@example.com", "2025-05-01", "Marriage"⟩).1
        ⟨"HallY", "userB", "b@example.com", "2025-05-01", "Birthday"⟩).2
      = (bookDate lowerCaseCollection isoDate emptyLedgers
        ⟨"HallY", "userB", "b@example.com", "2025-05-01", "Birthday"⟩).2 :=
  ⟨(ledger_isolation lowerCaseCollection isoDate emptyLedgers
      ⟨"Hall X", "userA", "a@example.com", "2025-05-01", "Marriage"⟩ "HallY" (by decide)).1,
    (ledger_isolation lowerCaseCollection isoDate emptyLedgers
      ⟨"Hall X", "userA", "a@example.com", "2025-05-01", "Marriage"⟩ "HallY" (by decide)).2.1
      ⟨"HallY", "userB", "b@example.com", "2025-05-01", "Birthday"⟩ rfl⟩

end EventManagement
